import Mathlib

/-!
# Verification of the Egg interpreter

A shallow embedding of the Egg language implementation (recursive-descent
parser and tree-walking evaluator) together with theorems settling the
specification claims about it.

Modelling conventions:
* Source strings are modelled as `List Char`; the regular expressions of the
  source are unfolded into explicit character scans.
* JavaScript numbers appearing in Egg programs are decimal digit sequences,
  modelled as `Int` (fractional results of `/` and float rounding are outside
  the model; no claim depends on them).
* The mutable scope graph is modelled as a store of frames indexed by `Nat`;
  a frame holds its own bindings and an optional parent index.  Fresh frames
  are appended at the end of the store, mirroring object creation.
* Recursion in the parser and evaluator is made total with an explicit fuel
  argument; running out of fuel is a distinguished outcome (`Err.outOfFuel`)
  that never coincides with a genuine result of the source program.
-/

namespace Egg

/-- Literal payload of a `value` expression node: the parser stores either a
number (from a digit sequence) or a string (from a quoted literal). -/
inductive Lit where
  | num : Int → Lit
  | str : String → Lit
deriving Repr, DecidableEq

/-- Expression objects produced by the parser: `value` literals,
`valid identifier` nodes (carrying the name), and `apply` nodes (carrying the
operator expression and the argument expressions). -/
inductive Expr where
  | value : Lit → Expr
  | ident : String → Expr
  | apply : Expr → List Expr → Expr
deriving Repr

/-- Unified error type: the source throws `SyntaxError`, `TypeError` and
`ReferenceError`; `outOfFuel` is the artifact of the fuelled embedding. -/
inductive Err where
  | syntaxError : String → Err
  | typeError : String → Err
  | referenceError : String → Err
  | outOfFuel : Err
deriving Repr, DecidableEq

/-! ## Character classes used by the regular expressions of the parser -/

/-- ASCII whitespace recognised by the `\s` class of the source regexes
(space, tab, newline, carriage return, vertical tab, form feed).  Unicode
whitespace is outside the model; no claim involves it. -/
def isSpaceChar (c : Char) : Bool :=
  c = ' ' || c = '\t' || c = '\n' || c = '\r' || c = '\x0b' || c = '\x0c'

/-- Decimal digit, the `\d` class. -/
def isDigitChar (c : Char) : Bool :=
  '0' ≤ c && c ≤ '9'

/-- Word character, the `\w` class used by the `\b` boundary of the number
regex: ASCII letters, digits and underscore. -/
def isWordChar (c : Char) : Bool :=
  (('a' ≤ c && c ≤ 'z') || ('A' ≤ c && c ≤ 'Z')) || isDigitChar c || c = '_'

/-- Character allowed inside an identifier: the source regex is
one or more repetitions of the class excluding whitespace and `(`, `)`,
comma, `#`, and the double quote. -/
def isIdentChar (c : Char) : Bool :=
  !(isSpaceChar c || c = '(' || c = ')' || c = ',' || c = '#' || c = '"')

/-- `skipSpace`: drop the leading whitespace of the program string
(via `string.search` of the first non-space in the source). -/
def skipSpace (s : List Char) : List Char :=
  s.dropWhile isSpaceChar

/-- Numeric value of a digit sequence, as computed by `Number(...)` on the
matched digits (exact here, where the host would round very large values). -/
def digitsVal (ds : List Char) : Int :=
  ds.foldl (fun acc c => acc * 10 + (Int.ofNat (c.toNat - '0'.toNat))) 0

/-! ## The three atomic matchers of `parseExpression` -/

/-- The string-literal regex: a double quote, zero or more
non-quote characters, a closing double quote.  Fails (like the regex) when no
closing quote exists. -/
def tryString (p : List Char) : Option (Expr × List Char) :=
  match p with
  | [] => none
  | c :: rest =>
    if c = '"' then
      let content := rest.takeWhile (fun x => x ≠ '"')
      match rest.drop content.length with
      | '"' :: rest2 => some (.value (.str (String.mk content)), rest2)
      | _ => none
    else none

/-- The number-literal regex with a word boundary after the digits.  The
greedy digit run can only satisfy the boundary at its full extent (every
shorter split sits between two word characters), so the regex matches exactly
when the maximal digit run is nonempty and is followed by a non-word
character or the end of input. -/
def tryNumber (p : List Char) : Option (Expr × List Char) :=
  let ds := p.takeWhile isDigitChar
  let rest := p.drop ds.length
  if ds.isEmpty then none
  else
    match rest with
    | [] => some (.value (.num (digitsVal ds)), [])
    | c :: _ =>
      if isWordChar c then none
      else some (.value (.num (digitsVal ds)), rest)

/-- The identifier regex: one or more characters of the identifier class,
matched greedily. -/
def tryIdent (p : List Char) : Option (Expr × List Char) :=
  let cs := p.takeWhile isIdentChar
  if cs.isEmpty then none
  else some (.ident (String.mk cs), p.drop cs.length)

/-! ## The mutually recursive parser -/

mutual

/-- `parseExpression`: skip space, try the string, number and identifier
matchers in order, then hand the atom to `parseApply`; report a syntax error
(with the distinguished empty-input message) when nothing matches. -/
def parseExpression : Nat → List Char → Except Err (Expr × List Char)
  | 0, _ => .error .outOfFuel
  | fuel+1, program =>
    let program := skipSpace program
    match tryString program with
    | some (expr, rest) => parseApply fuel expr rest
    | none =>
      match tryNumber program with
      | some (expr, rest) => parseApply fuel expr rest
      | none =>
        match tryIdent program with
        | some (expr, rest) => parseApply fuel expr rest
        | none =>
          if program.isEmpty then
            .error (.syntaxError "Unexpected syntax: you typed nothing")
          else
            .error (.syntaxError ("Unexpected syntax: " ++ String.mk program))
termination_by structural fuel _ => fuel

/-- `parseApply`: after skipping space, an opening parenthesis starts an
argument list; the resulting application is itself given to `parseApply`
again (curried chains).  Anything else returns the expression unchanged. -/
def parseApply : Nat → Expr → List Char → Except Err (Expr × List Char)
  | 0, _, _ => .error .outOfFuel
  | fuel+1, expr, program =>
    let program := skipSpace program
    if program.head? = some '(' then
      match parseArgs fuel [] (skipSpace program.tail) with
      | .error e => .error e
      | .ok (args, rest2) => parseApply fuel (.apply expr args) rest2
    else
      .ok (expr, program)
termination_by structural fuel _ _ => fuel

/-- The argument-list loop of `parseApply` in the source: while the next
character is not a closing parenthesis, parse one argument; a following comma
is consumed (a closing parenthesis ends the list on the next iteration); any
other character is a syntax error.  The source message quotes the comma and
parenthesis characters; the text is paraphrased here. -/
def parseArgs : Nat → List Expr → List Char → Except Err (List Expr × List Char)
  | 0, _, _ => .error .outOfFuel
  | fuel+1, acc, program =>
    if program.head? = some ')' then
      .ok (acc, program.tail)
    else
      match parseExpression fuel program with
      | .error e => .error e
      | .ok (arg, rest) =>
        let program2 := skipSpace rest
        if program2.head? = some ',' then
          parseArgs fuel (acc ++ [arg]) (skipSpace program2.tail)
        else if program2.head? = some ')' then
          parseArgs fuel (acc ++ [arg]) program2
        else
          .error (.syntaxError "Expected comma or closing paren")
termination_by structural fuel _ _ => fuel

end

/-- `parse`: parse a whole program (a single expression) and require that only
whitespace remains.  The fuel is sized generously from the input length; every
recursive step of the parser either consumes input or returns. -/
def parse (program : String) : Except Err Expr :=
  match parseExpression (4 * program.length + 16) program.toList with
  | .error e => .error e
  | .ok (expr, rest) =>
    if (skipSpace rest).length > 0 then
      .error (.syntaxError ("Unexpected text after program: " ++ String.mk rest))
    else
      .ok expr

/-! ## Runtime values and the scope store -/

/-- The built-in functions installed in the top scope: the seven synthesized
binary operators, `print`, `array`, `length` and `element`. -/
inductive Builtin where
  | add | sub | mul | div | eqOp | ltOp | gtOp
  | print | arrayNew | lengthFn | elementFn
deriving Repr, DecidableEq

/-- Runtime values: numbers, strings, booleans, arrays, functions (closures
carrying parameter names, body and the index of the captured defining scope,
or built-ins), and the host `undefined` (which leaks out of built-ins such as
out-of-range `element`). -/
inductive Value where
  | num : Int → Value
  | str : String → Value
  | bool : Bool → Value
  | undef : Value
  | arr : List Value → Value
  | closure : List String → Expr → Nat → Value
  | builtin : Builtin → Value
deriving Repr

/-- One scope object: its own properties and the optional prototype link to
the parent scope. -/
structure Frame where
  bindings : List (String × Value)
  parent : Option Nat
deriving Repr

/-- The mutable scope graph plus the `console.log` output stream, threaded
through evaluation as explicit state.  Scopes are addressed by their index in
`frames`; fresh scopes are appended at the end. -/
structure St where
  frames : List Frame
  out : List Value
deriving Repr

/-- Look up a property among a frame's own bindings. -/
def lookupBinding : List (String × Value) → String → Option Value
  | [], _ => none
  | (k, w) :: rest, n => if k = n then some w else lookupBinding rest n

/-- Create or overwrite a property among a frame's own bindings, as property
assignment does on the scope object itself. -/
def setBinding : List (String × Value) → String → Value → List (String × Value)
  | [], n, v => [(n, v)]
  | (k, w) :: rest, n, v =>
    if k = n then (k, v) :: rest else (k, w) :: setBinding rest n v

/-- Walk the prototype chain from frame `r` looking for `n`; this models both
the `in` test and the property read, which traverse the same chain.  The
`fuel` bounds the walk (parents always have smaller indices, so the store
size suffices). -/
def scopeLookup (st : St) : Nat → Nat → String → Option Value
  | 0, _, _ => none
  | fuel+1, r, n =>
    match st.frames.get? r with
    | none => none
    | some f =>
      match lookupBinding f.bindings n with
      | some v => some v
      | none =>
        match f.parent with
        | none => none
        | some p => scopeLookup st fuel p n

/-- Write binding `n := v` into the own bindings of frame `r` (never into an
ancestor), as `scope[name] = value` does in `define`. -/
def setFrameBinding (st : St) (r : Nat) (n : String) (v : Value) : St :=
  match st.frames.get? r with
  | none => st
  | some f =>
    { st with frames := st.frames.set r { f with bindings := setBinding f.bindings n v } }

/-- Append a fresh scope object to the store; its index is the old store
size. -/
def pushFrame (st : St) (f : Frame) : St :=
  { st with frames := st.frames ++ [f] }

/-- `typeof op == "function"`: closures and built-ins are the function
values. -/
def isFunction : Value → Bool
  | .closure _ _ _ => true
  | .builtin _ => true
  | _ => false

/-- The strict comparison `=== false` of the host: true exactly on the
boolean `false` (the `if` and `while` forms test its negation). -/
def strictEqFalse : Value → Bool
  | .bool false => true
  | _ => false

/-! ## Special forms -/

/-- The closed set of special forms registered on the `specialForms` object:
exactly `if`, `while`, `do`, `define` and `fun`. -/
inductive SpecialForm where
  | sIf | sWhile | sDo | sDefine | sFun
deriving Repr, DecidableEq

/-- The key lookup `operator.name in specialForms`. -/
def specialFormOf : String → Option SpecialForm
  | "if" => some .sIf
  | "while" => some .sWhile
  | "do" => some .sDo
  | "define" => some .sDefine
  | "fun" => some .sFun
  | _ => none

/-- The special-form test of `evaluate`: the operator must be a bare
identifier whose name is registered. -/
def isSpecialOp : Expr → Option SpecialForm
  | .ident n => specialFormOf n
  | _ => none

/-- Parameter extraction of the `fun` form: every argument before the body
must be an identifier; its name is collected. -/
def extractParams : List Expr → Except Err (List String)
  | [] => .ok []
  | .ident n :: rest =>
    match extractParams rest with
    | .error e => .error e
    | .ok ps => .ok (n :: ps)
  | _ :: _ => .error (.syntaxError "Parameter names must be valid identifiers")

/-! ## Built-in functions

`applyBuiltin` returns the result value together with the values printed
during the call; the caller appends those to the output stream.  The
synthesized operators act on the value shapes Egg programs produce; host
coercion results on other shapes (`NaN` and friends) are outside the model
and mapped to `undef` — no claim exercises them. -/

def applyBuiltin (b : Builtin) (vs : List Value) : Except Err (Value × List Value) :=
  match b, vs with
  | .add, [.num a, .num c] => .ok (.num (a + c), [])
  | .add, [.str a, .str c] => .ok (.str (a ++ c), [])
  | .sub, [.num a, .num c] => .ok (.num (a - c), [])
  | .mul, [.num a, .num c] => .ok (.num (a * c), [])
  | .div, [.num a, .num c] => .ok (.num (a / c), [])
  | .eqOp, [.num a, .num c] => .ok (.bool (a == c), [])
  | .eqOp, [.str a, .str c] => .ok (.bool (a == c), [])
  | .eqOp, [.bool a, .bool c] => .ok (.bool (a == c), [])
  | .ltOp, [.num a, .num c] => .ok (.bool (a < c), [])
  | .gtOp, [.num a, .num c] => .ok (.bool (c < a), [])
  | .print, v :: _ => .ok (v, [v])
  | .print, [] => .ok (.undef, [.undef])
  | .arrayNew, _ => .ok (.arr vs, [])
  | .lengthFn, .arr l :: _ => .ok (.num l.length, [])
  | .lengthFn, .str s :: _ => .ok (.num s.length, [])
  | .lengthFn, [] => .error (.typeError "Cannot read properties of undefined")
  | .elementFn, .arr l :: .num n :: _ =>
    if n < 0 then .ok (.undef, [])
    else .ok ((l.get? n.toNat).getD .undef, [])
  | .elementFn, [] => .error (.typeError "Cannot read properties of undefined")
  | .elementFn, .undef :: _ => .error (.typeError "Cannot read properties of undefined")
  | _, _ => .ok (.undef, [])

/-! ## The evaluator -/

mutual

/-- `evaluate`: literals produce their value; identifiers are resolved along
the scope chain (unresolved names raise a reference error); applications
first check for a special form and otherwise evaluate the operator, verify it
is a function, evaluate the arguments left to right and invoke it. -/
def eval : Nat → Expr → Nat → St → Except Err (Value × St)
  | 0, _, _, _ => .error .outOfFuel
  | _+1, .value (.num n), _, st => .ok (.num n, st)
  | _+1, .value (.str s), _, st => .ok (.str s, st)
  | _+1, .ident n, r, st =>
    match scopeLookup st st.frames.length r n with
    | some v => .ok (v, st)
    | none => .error (.referenceError ("Undefined binding: " ++ n))
  | fuel+1, .apply op args, r, st =>
    match isSpecialOp op with
    | some sf => evalSpecial fuel sf args r st
    | none =>
      match eval fuel op r st with
      | .error e => .error e
      | .ok (opv, st1) =>
        if isFunction opv then
          match evalArgs fuel args r st1 with
          | .error e => .error e
          | .ok (vs, st2) => applyValue fuel opv vs st2
        else
          .error (.typeError "Applying a non-function.")
termination_by structural fuel _ _ _ => fuel

/-- Left-to-right evaluation of the argument expressions (the `args.map`
of the source). -/
def evalArgs : Nat → List Expr → Nat → St → Except Err (List Value × St)
  | 0, _, _, _ => .error .outOfFuel
  | _+1, [], _, st => .ok ([], st)
  | fuel+1, a :: as, r, st =>
    match eval fuel a r st with
    | .error e => .error e
    | .ok (v, st1) =>
      match evalArgs fuel as r st1 with
      | .error e => .error e
      | .ok (vs, st2) => .ok (v :: vs, st2)
termination_by structural fuel _ _ _ => fuel

/-- The five special-form handlers, each receiving the unevaluated argument
expressions and the current scope. -/
def evalSpecial : Nat → SpecialForm → List Expr → Nat → St → Except Err (Value × St)
  | 0, _, _, _, _ => .error .outOfFuel
  | fuel+1, .sIf, args, r, st =>
    match args with
    | [c, t, e] =>
      match eval fuel c r st with
      | .error er => .error er
      | .ok (v, st1) =>
        if strictEqFalse v then eval fuel e r st1 else eval fuel t r st1
    | _ => .error (.syntaxError "Wrong number of arguments to if")
  | fuel+1, .sWhile, args, r, st =>
    match args with
    | [c, b] => evalWhile fuel c b r st
    | _ => .error (.syntaxError "Wrong number of args to while")
  | fuel+1, .sDo, args, r, st => evalDo fuel (.bool false) args r st
  | fuel+1, .sDefine, args, r, st =>
    match args with
    | [.ident n, e2] =>
      match eval fuel e2 r st with
      | .error er => .error er
      | .ok (v, st1) => .ok (v, setFrameBinding st1 r n v)
    | _ => .error (.syntaxError "Incorrect use of define")
  | _+1, .sFun, args, r, st =>
    match args with
    | [] => .error (.syntaxError "Functions need a body")
    | _ :: _ =>
      match extractParams args.dropLast with
      | .error e => .error e
      | .ok ps => .ok (.closure ps (args.getLastD (.ident "")) r, st)
termination_by structural fuel _ _ _ _ => fuel

/-- The `while` loop: re-evaluate the condition; stop with `false` when it is
the boolean `false`, otherwise evaluate the body and repeat. -/
def evalWhile : Nat → Expr → Expr → Nat → St → Except Err (Value × St)
  | 0, _, _, _, _ => .error .outOfFuel
  | fuel+1, c, b, r, st =>
    match eval fuel c r st with
    | .error e => .error e
    | .ok (v, st1) =>
      if strictEqFalse v then
        .ok (.bool false, st1)
      else
        match eval fuel b r st1 with
        | .error e => .error e
        | .ok (_, st2) => evalWhile fuel c b r st2
termination_by structural fuel _ _ _ _ => fuel

/-- The `do` loop: evaluate each argument in order, starting from `false`,
returning the last value. -/
def evalDo : Nat → Value → List Expr → Nat → St → Except Err (Value × St)
  | 0, _, _, _, _ => .error .outOfFuel
  | _+1, v, [], _, st => .ok (v, st)
  | fuel+1, _, a :: as, r, st =>
    match eval fuel a r st with
    | .error e => .error e
    | .ok (v1, st1) => evalDo fuel v1 as r st1
termination_by structural fuel _ _ _ _ => fuel

/-- Invoke a function value on already-evaluated arguments.  A closure checks
the arity, creates a fresh scope whose parent is the captured defining scope,
binds the parameters there and evaluates the body in that scope.  A built-in
runs `applyBuiltin` and appends its printed values to the output stream.  The
non-function case is unreachable behind the `isFunction` guard. -/
def applyValue : Nat → Value → List Value → St → Except Err (Value × St)
  | 0, _, _, _ => .error .outOfFuel
  | fuel+1, .closure params body cref, vs, st =>
    if vs.length ≠ params.length then
      .error (.typeError "Wrong number of arguments")
    else
      eval fuel body st.frames.length
        (pushFrame st ⟨(params.zip vs).foldl (fun bs pv => setBinding bs pv.1 pv.2) [], some cref⟩)
  | _+1, .builtin b, vs, st =>
    match applyBuiltin b vs with
    | .error e => .error e
    | .ok (v, printed) => .ok (v, { st with out := st.out ++ printed })
  | _+1, _, _, _ => .error (.typeError "Applying a non-function.")
termination_by structural fuel _ _ _ => fuel

end

/-! ## The top scope and `run` -/

/-- The root scope object with the built-in bindings. -/
def topFrame : Frame :=
  { bindings :=
      [("true", .bool true), ("false", .bool false),
       ("+", .builtin .add), ("-", .builtin .sub), ("*", .builtin .mul),
       ("/", .builtin .div), ("==", .builtin .eqOp), ("<", .builtin .ltOp),
       (">", .builtin .gtOp), ("print", .builtin .print),
       ("array", .builtin .arrayNew), ("length", .builtin .lengthFn),
       ("element", .builtin .elementFn)],
    parent := none }

/-- The store at the start of a `run`: the root scope at index 0 and the
fresh program scope (a child of the root) at index 1. -/
def initialSt : St :=
  { frames := [topFrame, { bindings := [], parent := some 0 }], out := [] }

/-- `run` up to the final state: parse the program and evaluate it in the
fresh child scope of the root. -/
def runState (fuel : Nat) (program : String) : Except Err (Value × St) :=
  match parse program with
  | .error e => .error e
  | .ok expr => eval fuel expr 1 initialSt

/-- `run`: the value produced by the program. -/
def run (fuel : Nat) (program : String) : Except Err Value :=
  match runState fuel program with
  | .error e => .error e
  | .ok (v, _) => .ok v

/-! ## Helper lemmas -/

/-- A greedy scan over `ds ++ rest` yields exactly `ds` when every element of
`ds` satisfies the predicate and the head of `rest` (if any) does not. -/
theorem takeWhile_append_stop {α : Type} (p : α → Bool) (ds rest : List α)
    (h1 : ∀ c ∈ ds, p c = true)
    (h2 : ∀ c, rest.head? = some c → p c = false) :
    (ds ++ rest).takeWhile p = ds := by
  induction ds with
  | nil =>
    cases rest with
    | nil => rfl
    | cons c cs =>
      simp only [List.nil_append]
      rw [List.takeWhile_cons_of_neg (by simp [h2 c rfl])]
  | cons d ds2 ih =>
    have hd : p d = true := h1 d (by simp)
    simp only [List.cons_append]
    rw [List.takeWhile_cons_of_pos hd]
    rw [ih (fun c hc => h1 c (List.mem_cons_of_mem _ hc))]

/-- The strict test recognizes exactly the boolean `false`. -/
theorem strictEqFalse_iff (v : Value) : strictEqFalse v = true ↔ v = .bool false := by
  cases v
  case bool b => cases b <;> simp [strictEqFalse]
  all_goals simp [strictEqFalse]

/-- Digits are word characters. -/
theorem digit_isWord (c : Char) (h : isDigitChar c = true) : isWordChar c = true := by
  simp [isWordChar, h]

/-- A digit is not the double quote. -/
theorem digit_ne_quote (c : Char) (h : isDigitChar c = true) : c ≠ '"' := by
  intro he
  subst he
  exact absurd h (by decide)

/-- A state evolution that keeps the root frame (index 0) intact and only
ever appends frames to the store. -/
def rootIntact (st st' : St) : Prop :=
  st'.frames.get? 0 = st.frames.get? 0 ∧ st.frames.length ≤ st'.frames.length

theorem rootIntact_refl (st : St) : rootIntact st st :=
  ⟨rfl, le_refl _⟩

theorem rootIntact_trans {a b c : St} (h1 : rootIntact a b) (h2 : rootIntact b c) :
    rootIntact a c :=
  ⟨h2.1.trans h1.1, h1.2.trans h2.2⟩

/-- Writing a binding into a nonzero frame neither touches the root frame nor
changes the store size. -/
theorem setFrameBinding_rootIntact (st : St) (r : Nat) (n : String) (v : Value)
    (hr : r ≠ 0) : rootIntact st (setFrameBinding st r n v) := by
  unfold setFrameBinding
  cases h : st.frames.get? r with
  | none => exact rootIntact_refl st
  | some f =>
    constructor
    · show (st.frames.set r _).get? 0 = st.frames.get? 0
      rw [List.get?_eq_getElem?, List.get?_eq_getElem?]
      exact List.getElem?_set_ne hr
    · show st.frames.length ≤ (st.frames.set r _).length
      rw [List.length_set]

/-- Appending a fresh frame keeps the (existing) root frame intact. -/
theorem pushFrame_rootIntact (st : St) (f : Frame) (h : 0 < st.frames.length) :
    rootIntact st (pushFrame st f) := by
  constructor
  · show (st.frames ++ [f]).get? 0 = st.frames.get? 0
    rw [List.get?_eq_getElem?, List.get?_eq_getElem?]
    exact List.getElem?_append_left h
  · show st.frames.length ≤ (st.frames ++ [f]).length
    simp

/-! ## Claim theorems -/

/-- C1: evaluating an application whose operator is not a registered special
form first evaluates the operator (errors propagate); a non-function operator
value raises the not-callable type error uniformly, for every argument list,
so no argument expression is evaluated; a function operator value leads to
left-to-right evaluation of the arguments followed by the invocation, whose
result is the result of the application. -/
theorem apply_non_special_form (fuel : Nat) (op : Expr) (args : List Expr)
    (r : Nat) (st : St) (hns : isSpecialOp op = none) :
    (∀ e, eval fuel op r st = .error e →
       eval (fuel+1) (.apply op args) r st = .error e) ∧
    (∀ opv st1, eval fuel op r st = .ok (opv, st1) →
       (isFunction opv = false →
          eval (fuel+1) (.apply op args) r st =
            .error (.typeError "Applying a non-function.")) ∧
       (isFunction opv = true →
          eval (fuel+1) (.apply op args) r st =
            (match evalArgs fuel args r st1 with
             | .error e => .error e
             | .ok (vs, st2) => applyValue fuel opv vs st2))) ∧
    (∀ (f : Nat) (a : Expr) (as : List Expr) (r' : Nat) (st' : St),
       evalArgs (f+1) (a :: as) r' st' =
         (match eval f a r' st' with
          | .error e => .error e
          | .ok (v, st1) =>
            match evalArgs f as r' st1 with
            | .error e => .error e
            | .ok (vs, st2) => .ok (v :: vs, st2))) := by
  refine ⟨?_, ?_, ?_⟩
  · intro e he
    simp only [eval, hns, he]
  · intro opv st1 hok
    constructor
    · intro hnf
      simp [eval, hns, hok, hnf]
    · intro hf
      simp [eval, hns, hok, hf]
  · intro f a as r' st'
    simp only [evalArgs]

/-- C1 witness: the literal `5` is not a special form, evaluates to the
non-function number 5, and applying it raises the type error. -/
theorem apply_non_special_form_witness :
    isSpecialOp (Expr.value (.num 5)) = none ∧
    eval 10 (Expr.value (.num 5)) 1 initialSt = .ok (.num 5, initialSt) ∧
    isFunction (Value.num 5) = false ∧
    eval 11 (Expr.apply (.value (.num 5)) [.ident "nope"]) 1 initialSt =
      .error (.typeError "Applying a non-function.") :=
  ⟨rfl, rfl, rfl,
    ((apply_non_special_form 10 (Expr.value (.num 5)) [.ident "nope"] 1 initialSt rfl).2.1
      (Value.num 5) initialSt rfl).1 rfl⟩

/-- C2: the `if` form raises its syntax error on any argument count other
than 3; on `[c, t, e]` it evaluates `c`, then evaluates exactly `t` when the
condition value is not the boolean `false` and exactly `e` when it is. -/
theorem if_special_form (fuel : Nat) (args : List Expr) (r : Nat) (st : St) :
    (args.length ≠ 3 →
       evalSpecial (fuel+1) .sIf args r st =
         .error (.syntaxError "Wrong number of arguments to if")) ∧
    (∀ c t e v st1, args = [c, t, e] → eval fuel c r st = .ok (v, st1) →
       (v ≠ .bool false →
          evalSpecial (fuel+1) .sIf args r st = eval fuel t r st1) ∧
       (v = .bool false →
          evalSpecial (fuel+1) .sIf args r st = eval fuel e r st1)) := by
  constructor
  · intro hlen
    simp only [evalSpecial]
    match args, hlen with
    | [], _ => rfl
    | [_], _ => rfl
    | [_, _], _ => rfl
    | _ :: _ :: _ :: _ :: _, _ => rfl
    | [_, _, _], h => exact absurd rfl h
  · rintro c t e v st1 rfl hc
    have key : evalSpecial (fuel+1) .sIf [c, t, e] r st =
        (match eval fuel c r st with
         | .error er => .error er
         | .ok (w, st2) =>
           if strictEqFalse w then eval fuel e r st2 else eval fuel t r st2) := rfl
    constructor
    · intro hv
      rw [key, hc]
      exact if_neg (fun h2 => hv ((strictEqFalse_iff v).mp h2))
    · rintro rfl
      rw [key, hc]
      rfl

/-- C2 witness: `if(true, 1, undefinedName)` returns 1 and never evaluates
the untaken branch containing the unresolved identifier. -/
theorem if_special_form_witness :
    run 20 "if(true, 1, undefinedName)" = .ok (.num 1) ∧
    evalSpecial 20 .sIf [.ident "true", .value (.num 1), .ident "undefinedName"]
        1 initialSt = eval 19 (.value (.num 1)) 1 initialSt :=
  ⟨rfl,
    ((if_special_form 19 [.ident "true", .value (.num 1), .ident "undefinedName"]
        1 initialSt).2 (.ident "true") (.value (.num 1)) (.ident "undefinedName")
        (.bool true) initialSt rfl rfl).1 (by simp)⟩

/-- C3: the closure built by the `fun` form records the parameter names, the
body and the defining scope; invoking it with an argument count different
from the parameter count raises the arity type error; with matching counts a
fresh scope is pushed whose parent is the captured defining scope (the caller
passes no scope at all), the parameters are bound to the arguments there, and
the body is evaluated in that fresh scope. -/
theorem fun_special_form (fuel : Nat) (r : Nat) (params : List String)
    (body : Expr) (cref : Nat) (vs : List Value) (st : St) :
    (∀ args, args ≠ [] → extractParams args.dropLast = .ok params →
       args.getLastD (.ident "") = body →
       evalSpecial (fuel+1) .sFun args r st = .ok (.closure params body r, st)) ∧
    (vs.length ≠ params.length →
       applyValue (fuel+1) (.closure params body cref) vs st =
         .error (.typeError "Wrong number of arguments")) ∧
    (vs.length = params.length →
       applyValue (fuel+1) (.closure params body cref) vs st =
         eval fuel body st.frames.length
           (pushFrame st
             ⟨(params.zip vs).foldl (fun bs pv => setBinding bs pv.1 pv.2) [],
              some cref⟩)) := by
  refine ⟨?_, ?_, ?_⟩
  · intro args hne hps hbody
    match args, hne with
    | a :: as, _ =>
      simp only [evalSpecial, hps, hbody]
  · intro hlen
    simp only [applyValue, if_pos hlen]
  · intro hlen
    simp only [applyValue, hlen]
    simp

/-- C3 witness: the curried program returns 7; a one-parameter closure
rejects two arguments and accepts one, evaluating its body in the pushed
scope parented by the captured scope. -/
theorem fun_special_form_witness :
    run 60 "fun(a, fun(b, +(a,b)))(3)(4)" = .ok (.num 7) ∧
    evalSpecial 10 .sFun [.ident "a", .ident "a"] 1 initialSt =
      .ok (.closure ["a"] (.ident "a") 1, initialSt) ∧
    applyValue 10 (.closure ["a"] (.ident "a") 1) [.num 3, .num 4] initialSt =
      .error (.typeError "Wrong number of arguments") ∧
    applyValue 10 (.closure ["a"] (.ident "a") 1) [.num 3] initialSt =
      eval 9 (.ident "a") 2 (pushFrame initialSt ⟨[("a", .num 3)], some 1⟩) :=
  ⟨rfl,
    (fun_special_form 9 1 ["a"] (.ident "a") 1 [] initialSt).1
      [.ident "a", .ident "a"] (by simp) rfl rfl,
    (fun_special_form 9 1 ["a"] (.ident "a") 1 [.num 3, .num 4] initialSt).2.1
      (by decide),
    (fun_special_form 9 1 ["a"] (.ident "a") 1 [.num 3] initialSt).2.2 rfl⟩

/-- C4: `define` raises its syntax error whenever the arguments are not
exactly an identifier followed by one expression; otherwise it evaluates the
second argument in the given scope, writes the name into the own bindings of
exactly the given scope frame — every other frame, ancestors included, is
untouched — and returns the value. -/
theorem define_special_form (fuel : Nat) (args : List Expr) (r : Nat) (st : St) :
    ((∀ n e2, args ≠ [Expr.ident n, e2]) →
       evalSpecial (fuel+1) .sDefine args r st =
         .error (.syntaxError "Incorrect use of define")) ∧
    (∀ n e2 v st1, args = [Expr.ident n, e2] → eval fuel e2 r st = .ok (v, st1) →
       evalSpecial (fuel+1) .sDefine args r st =
         .ok (v, setFrameBinding st1 r n v)) ∧
    (∀ (st1 : St) (n : String) (v : Value) (r' : Nat), r' ≠ r →
       (setFrameBinding st1 r n v).frames.get? r' = st1.frames.get? r') := by
  refine ⟨?_, ?_, ?_⟩
  · intro hbad
    match args with
    | [] => rfl
    | [Expr.ident n] => rfl
    | [Expr.value v] => rfl
    | [Expr.apply o as] => rfl
    | [Expr.ident n, e2] => exact absurd rfl (hbad n e2)
    | [Expr.value v, e2] => rfl
    | [Expr.apply o as, e2] => rfl
    | Expr.ident _ :: _ :: _ :: _ => rfl
    | Expr.value _ :: _ :: _ :: _ => rfl
    | Expr.apply _ _ :: _ :: _ :: _ => rfl
  · rintro n e2 v st1 rfl hev
    have key : evalSpecial (fuel+1) .sDefine [Expr.ident n, e2] r st =
        (match eval fuel e2 r st with
         | .error er => .error er
         | .ok (w, st2) => .ok (w, setFrameBinding st2 r n w)) := rfl
    rw [key, hev]
  · intro st1 n v r' hne
    unfold setFrameBinding
    cases h : st1.frames.get? r with
    | none => rfl
    | some f =>
      show (st1.frames.set r _).get? r' = st1.frames.get? r'
      rw [List.get?_eq_getElem?, List.get?_eq_getElem?]
      exact List.getElem?_set_ne (Ne.symm hne)

/-- C4 witness: `define` on a non-identifier first argument errors; defining
`true` in the program scope shadows the root binding (the program returns the
new value 7) while the root frame itself keeps its own copy untouched. -/
theorem define_special_form_witness :
    evalSpecial 10 .sDefine [.value (.num 1), .value (.num 2)] 1 initialSt =
      .error (.syntaxError "Incorrect use of define") ∧
    evalSpecial 10 .sDefine [.ident "y", .value (.num 7)] 1 initialSt =
      .ok (.num 7, setFrameBinding initialSt 1 "y" (.num 7)) ∧
    (setFrameBinding initialSt 1 "y" (.num 7)).frames.get? 0 =
      initialSt.frames.get? 0 ∧
    run 30 "do(define(true, 7), true)" = .ok (.num 7) :=
  ⟨(define_special_form 9 [.value (.num 1), .value (.num 2)] 1 initialSt).1
      (by intro n e2 h; simp at h),
    (define_special_form 9 [.ident "y", .value (.num 7)] 1 initialSt).2.1
      "y" (.value (.num 7)) (.num 7) initialSt rfl rfl,
    (define_special_form 9 [] 1 initialSt).2.2 initialSt "y" (.num 7) 0
      (by decide),
    rfl⟩

/-- C10: an application whose operator is a bare identifier registered as a
special form always dispatches to that form's handler, for every scope state
whatsoever — in particular for scopes in which the program has bound the same
name with `define` — so the special-form check takes priority over scope
lookup of the operator. -/
theorem special_dispatch_precedes_lookup (fuel : Nat) (n : String)
    (sf : SpecialForm) (args : List Expr) (r : Nat) (st : St)
    (h : specialFormOf n = some sf) :
    eval (fuel+1) (.apply (.ident n) args) r st = evalSpecial fuel sf args r st := by
  simp only [eval, isSpecialOp, h]

/-- C10 witness: in a scope whose program frame binds `if` to the number 5,
`if` in operator position still dispatches to the special form; the whole
program `do(define(if, 5), if(true, if, 99))` both defines the binding and
returns it from the argument position of a working `if` form. -/
theorem special_dispatch_precedes_lookup_witness :
    eval 21 (.apply (.ident "if")
        [.ident "true", .ident "if", .value (.num 99)]) 1
        { frames := [topFrame, { bindings := [("if", .num 5)], parent := some 0 }],
          out := [] } =
      evalSpecial 20 .sIf [.ident "true", .ident "if", .value (.num 99)] 1
        { frames := [topFrame, { bindings := [("if", .num 5)], parent := some 0 }],
          out := [] } ∧
    run 40 "do(define(if, 5), if(true, if, 99))" = .ok (.num 5) :=
  ⟨special_dispatch_precedes_lookup 20 "if" .sIf
      [.ident "true", .ident "if", .value (.num 99)] 1
      { frames := [topFrame, { bindings := [("if", .num 5)], parent := some 0 }],
        out := [] } rfl,
    rfl⟩

/-- C7 counterexample: the input `12a` begins (after no whitespace) with the
digits `12` followed by the non-digit `a`, yet the parser produces the
identifier `12a`, not a number literal valued 12: the word-boundary of the
number regex rejects a following letter, so the digits are absorbed into an
identifier. -/
theorem number_literal_counterexample :
    parseExpression 16 ['1', '2', 'a'] = .ok (.ident "12a", []) ∧
    parse "12a" = .ok (.ident "12a") ∧
    Expr.ident "12a" ≠ Expr.value (.num 12) :=
  ⟨rfl, rfl, by simp⟩

/-- C7 amended: when, after skipping leading whitespace, the input is a
nonempty digit run followed by a non-word character (not a letter, digit or
underscore) or by end of input, the parser produces a number literal whose
value is the numeric value of the greedily matched digit run, which is then
handed to the application parser — the digits are not absorbed into an
identifier. -/
theorem number_literal_word_boundary (fuel : Nat) (p ds rest : List Char)
    (hq : skipSpace p = ds ++ rest) (hne : ds ≠ [])
    (hds : ∀ c ∈ ds, isDigitChar c = true)
    (hrest : ∀ c, rest.head? = some c → isWordChar c = false) :
    parseExpression (fuel+1) p =
      parseApply fuel (.value (.num (digitsVal ds))) rest := by
  have htw : (ds ++ rest).takeWhile isDigitChar = ds :=
    takeWhile_append_stop _ _ _ hds (fun c hc => by
      cases hdc : isDigitChar c with
      | false => rfl
      | true =>
        have hw := hrest c hc
        rw [digit_isWord c hdc] at hw
        exact absurd hw (by simp))
  have hts : tryString (ds ++ rest) = none := by
    cases ds with
    | nil => exact absurd rfl hne
    | cons d ds2 =>
      have hd : d ≠ '"' := digit_ne_quote d (hds d (by simp))
      simp [tryString, hd]
  have hie : ds.isEmpty = false := by
    cases ds with
    | nil => exact absurd rfl hne
    | cons d ds2 => rfl
  have htn : tryNumber (ds ++ rest) = some (.value (.num (digitsVal ds)), rest) := by
    unfold tryNumber
    cases rest with
    | nil =>
      simp only [List.append_nil] at htw ⊢
      simp only [htw, hie, List.drop_length]
      simp
    | cons c cs => simp [htw, List.drop_left, hie, hrest c rfl]
  have key : parseExpression (fuel+1) p =
      (match tryString (skipSpace p) with
       | some (e2, r2) => parseApply fuel e2 r2
       | none =>
         match tryNumber (skipSpace p) with
         | some (e2, r2) => parseApply fuel e2 r2
         | none =>
           match tryIdent (skipSpace p) with
           | some (e2, r2) => parseApply fuel e2 r2
           | none =>
             if (skipSpace p).isEmpty then
               .error (.syntaxError "Unexpected syntax: you typed nothing")
             else
               .error (.syntaxError ("Unexpected syntax: " ++ String.mk (skipSpace p)))) := rfl
  rw [key, hq, hts, htn]

/-- C7 witness: the input ` 42)` has a maximal digit run `42` followed by the
non-word character `)`, and the parser hands the number literal 42 to the
application parser. -/
theorem number_literal_word_boundary_witness :
    skipSpace [' ', '4', '2', ')'] = ['4', '2'] ++ [')'] ∧
    parseExpression 11 [' ', '4', '2', ')'] =
      parseApply 10 (.value (.num (digitsVal ['4', '2']))) [')'] :=
  ⟨rfl,
    number_literal_word_boundary 10 [' ', '4', '2', ')'] ['4', '2'] [')'] rfl
      (by simp) (by decide)
      (fun c hc => by
        simp only [List.head?_cons, Option.some.injEq] at hc
        subst hc
        decide)⟩

/-- C8 counterexample: on `a"b` neither the string nor the number form
matches, and the longest prefix avoiding only whitespace, parentheses, comma
and hash is the whole `a"b`; yet the parser produces the identifier `a`,
because the identifier class also excludes the double quote. -/
theorem identifier_class_counterexample :
    tryString ['a', '"', 'b'] = none ∧
    tryNumber ['a', '"', 'b'] = none ∧
    parseExpression 16 ['a', '"', 'b'] = .ok (.ident "a", ['"', 'b']) ∧
    Expr.ident "a" ≠ Expr.ident "a\"b" :=
  ⟨rfl, rfl, rfl, by simp⟩

/-- C8 amended: when neither the string-literal nor the number-literal form
matches, the parser matches the longest nonempty prefix of characters outside
the excluded set, which is exactly whitespace, `(`, `)`, comma, `#` and the
double quote — the quote terminates identifiers too. -/
theorem identifier_excluded_class (fuel : Nat) (p : List Char)
    (hs : tryString (skipSpace p) = none)
    (hn : tryNumber (skipSpace p) = none)
    (hne : (skipSpace p).takeWhile isIdentChar ≠ []) :
    parseExpression (fuel+1) p =
      parseApply fuel
        (.ident (String.mk ((skipSpace p).takeWhile isIdentChar)))
        ((skipSpace p).drop ((skipSpace p).takeWhile isIdentChar).length) ∧
    (∀ c : Char, isIdentChar c = true ↔
       ¬(isSpaceChar c = true ∨ c = '(' ∨ c = ')' ∨ c = ',' ∨ c = '#' ∨ c = '"')) := by
  constructor
  · have hie : ((skipSpace p).takeWhile isIdentChar).isEmpty = false := by
      cases h : (skipSpace p).takeWhile isIdentChar with
      | nil => exact absurd h hne
      | cons c cs => rfl
    have hti : tryIdent (skipSpace p) =
        some (.ident (String.mk ((skipSpace p).takeWhile isIdentChar)),
              (skipSpace p).drop ((skipSpace p).takeWhile isIdentChar).length) := by
      unfold tryIdent
      simp only [hie]
      simp
    have key : parseExpression (fuel+1) p =
        (match tryString (skipSpace p) with
         | some (e2, r2) => parseApply fuel e2 r2
         | none =>
           match tryNumber (skipSpace p) with
           | some (e2, r2) => parseApply fuel e2 r2
           | none =>
             match tryIdent (skipSpace p) with
             | some (e2, r2) => parseApply fuel e2 r2
             | none =>
               if (skipSpace p).isEmpty then
                 .error (.syntaxError "Unexpected syntax: you typed nothing")
               else
                 .error (.syntaxError ("Unexpected syntax: " ++ String.mk (skipSpace p)))) := rfl
    rw [key, hs, hn, hti]
  · intro c
    simp only [isIdentChar, Bool.not_eq_eq_eq_not, Bool.not_true, Bool.or_eq_false_iff,
      decide_eq_false_iff_not]
    constructor
    · rintro ⟨⟨⟨⟨⟨h1, h2⟩, h3⟩, h4⟩, h5⟩, h6⟩
      rintro (h | h | h | h | h | h)
      · rw [h] at h1; exact absurd h1 (by simp)
      · exact h2 h
      · exact h3 h
      · exact h4 h
      · exact h5 h
      · exact h6 h
    · intro h
      refine ⟨⟨⟨⟨⟨?_, ?_⟩, ?_⟩, ?_⟩, ?_⟩, ?_⟩
      · rcases hsp : isSpaceChar c with _ | _
        · rfl
        · exact absurd (Or.inl hsp) h
      · exact fun hc => h (Or.inr (Or.inl hc))
      · exact fun hc => h (Or.inr (Or.inr (Or.inl hc)))
      · exact fun hc => h (Or.inr (Or.inr (Or.inr (Or.inl hc))))
      · exact fun hc => h (Or.inr (Or.inr (Or.inr (Or.inr (Or.inl hc)))))
      · exact fun hc => h (Or.inr (Or.inr (Or.inr (Or.inr (Or.inr hc)))))

/-- C8 witness: on `foo(` the identifier `foo` is matched greedily and the
rest `(` is handed to the application parser; the excluded-set
characterization is instantiated at the quote character, which the original
excluded set would have admitted. -/
theorem identifier_excluded_class_witness :
    tryString ['f', 'o', 'o', '('] = none ∧
    tryNumber ['f', 'o', 'o', '('] = none ∧
    ['f', 'o', 'o', '('].takeWhile isIdentChar = ['f', 'o', 'o'] ∧
    parseExpression 11 ['f', 'o', 'o', '('] =
      parseApply 10 (.ident "foo") ['('] ∧
    (isIdentChar '"' = true ↔ ¬(isSpaceChar '"' = true ∨ '"' = '(' ∨ '"' = ')' ∨
       '"' = ',' ∨ '"' = '#' ∨ '"' = '"')) := by
  refine ⟨rfl, rfl, rfl, ?_, ?_⟩
  · exact (identifier_excluded_class 10 ['f', 'o', 'o', '(']
      rfl rfl (by decide)).1
  · exact (identifier_excluded_class 10 ['f', 'o', 'o', '(']
      rfl rfl (by decide)).2 '"'

/-- C9: inside an argument list, after an argument is parsed, a comma whose
following (whitespace-skipped) character is the closing parenthesis ends the
list exactly like an immediate closing parenthesis: both runs of the
argument-list loop succeed with the arguments collected so far and the input
after the parenthesis — a trailing comma is accepted and yields the same
argument sequence. -/
theorem trailing_comma_accepted (fuel : Nat) (acc : List Expr) :
    (∀ (p : List Char) (e : Expr) (q w r : List Char),
       p.head? ≠ some ')' →
       parseExpression (fuel+1) p = .ok (e, q) →
       skipSpace q = ',' :: w →
       skipSpace w = ')' :: r →
       parseArgs (fuel+2) acc p = .ok (acc ++ [e], r)) ∧
    (∀ (p : List Char) (e : Expr) (q r : List Char),
       p.head? ≠ some ')' →
       parseExpression (fuel+1) p = .ok (e, q) →
       skipSpace q = ')' :: r →
       parseArgs (fuel+2) acc p = .ok (acc ++ [e], r)) := by
  have key : ∀ (f : Nat) (acc2 : List Expr) (p : List Char),
      parseArgs (f+1) acc2 p =
        (if p.head? = some ')' then
          .ok (acc2, p.tail)
        else
          match parseExpression f p with
          | .error e2 => .error e2
          | .ok (arg, rest) =>
            let program2 := skipSpace rest
            if program2.head? = some ',' then
              parseArgs f (acc2 ++ [arg]) (skipSpace program2.tail)
            else if program2.head? = some ')' then
              parseArgs f (acc2 ++ [arg]) program2
            else
              .error (.syntaxError "Expected comma or closing paren")) :=
    fun _ _ _ => rfl
  constructor
  · intro p e q w r hhead hp hc hw
    have h2 : parseArgs (fuel+1) (acc ++ [e]) (skipSpace w) = .ok (acc ++ [e], r) := by
      rw [hw, key fuel (acc ++ [e]) (')' :: r)]
      simp
    rw [key (fuel+1) acc p, if_neg hhead, hp]
    simp only [hc]
    simp [h2]
  · intro p e q r hhead hp hc
    rw [key (fuel+1) acc p, if_neg hhead, hp]
    simp only [hc]
    simp [key fuel (acc ++ [e]) (')' :: r)]

/-- C9 witness: the argument tails `1,)` and `1)` of the programs `f(1,)` and
`f(1)` both produce the single-argument list `[1]`, and the two whole
programs parse to the same application. -/
theorem trailing_comma_accepted_witness :
    parseArgs 12 [] ['1', ',', ')'] = .ok ([.value (.num 1)], []) ∧
    parseArgs 12 [] ['1', ')'] = .ok ([.value (.num 1)], []) ∧
    parse "f(1,)" = parse "f(1)" ∧
    parse "f(1,)" = .ok (.apply (.ident "f") [.value (.num 1)]) := by
  refine ⟨?_, ?_, rfl, rfl⟩
  · exact (trailing_comma_accepted 10 []).1 ['1', ',', ')']
      (.value (.num 1)) [',', ')'] [')'] [] (by decide) rfl rfl rfl
  · exact (trailing_comma_accepted 10 []).2 ['1', ')']
      (.value (.num 1)) [')'] [] (by decide) rfl rfl

/-- C6 counterexample: `element(array(), 0)` does not fail — it evaluates
successfully, producing the host undefined value that the bare `array[n]`
access of the source yields for an out-of-range index. -/
theorem element_out_of_range_counterexample :
    run 20 "element(array(), 0)" = .ok Value.undef ∧
    runState 20 "element(array(), 0)" = .ok (Value.undef, initialSt) :=
  ⟨rfl, rfl⟩

/-- C6 amended: for an array value and an out-of-range index (negative or at
least the element count) the built-in `element` succeeds with the host
undefined value rather than failing; for an in-range index it returns the
element at that zero-based position. -/
theorem element_indexing (l : List Value) (n : Int) :
    (n < 0 ∨ (l.length : Int) ≤ n →
       applyBuiltin .elementFn [.arr l, .num n] = .ok (.undef, [])) ∧
    (0 ≤ n → n < (l.length : Int) →
       applyBuiltin .elementFn [.arr l, .num n] =
         .ok ((l.get? n.toNat).getD .undef, []) ∧
       (l.get? n.toNat).isSome = true) := by
  constructor
  · intro h
    cases h with
    | inl h =>
      unfold applyBuiltin
      simp [h]
    | inr h =>
      unfold applyBuiltin
      have hnn : ¬ n < 0 := by omega
      have hnone : l[n.toNat]? = none := by
        rw [List.getElem?_eq_none]
        omega
      simp [hnn, hnone]
  · intro h0 hlt
    have hnn : ¬ n < 0 := by omega
    constructor
    · unfold applyBuiltin
      simp [hnn]
    · rw [List.get?_eq_getElem?]
      rw [List.getElem?_eq_getElem (by omega)]
      rfl

/-- C6 witness: the amended behavior at concrete inputs — index 5 of a
one-element array gives undefined, index 0 gives the element. -/
theorem element_indexing_witness :
    applyBuiltin .elementFn [.arr [.num 1], .num 5] = .ok (.undef, []) ∧
    applyBuiltin .elementFn [.arr [.num 1], .num 0] = .ok (.num 1, []) := by
  constructor
  · exact (element_indexing [.num 1] 5).1 (by decide)
  · exact ((element_indexing [.num 1] 0).2 (by decide) (by decide)).1

/-- Every evaluator function, run with a nonzero current scope in a nonempty
store, leaves the root frame intact: bindings are written only into the
current scope frame (`define`) or into freshly appended frames (closure
calls), never into frame 0. -/
theorem evalRootIntact : ∀ fuel : Nat,
    (∀ e r st v st', 0 < r → 0 < st.frames.length →
       eval fuel e r st = .ok (v, st') → rootIntact st st') ∧
    (∀ args r st vs st', 0 < r → 0 < st.frames.length →
       evalArgs fuel args r st = .ok (vs, st') → rootIntact st st') ∧
    (∀ sf args r st v st', 0 < r → 0 < st.frames.length →
       evalSpecial fuel sf args r st = .ok (v, st') → rootIntact st st') ∧
    (∀ c b r st v st', 0 < r → 0 < st.frames.length →
       evalWhile fuel c b r st = .ok (v, st') → rootIntact st st') ∧
    (∀ v0 args r st v st', 0 < r → 0 < st.frames.length →
       evalDo fuel v0 args r st = .ok (v, st') → rootIntact st st') ∧
    (∀ fv vs st v st', 0 < st.frames.length →
       applyValue fuel fv vs st = .ok (v, st') → rootIntact st st') := by
  intro fuel
  induction fuel with
  | zero =>
    refine ⟨?_, ?_, ?_, ?_, ?_, ?_⟩ <;>
      (intros; rename_i h; exact Except.noConfusion h)
  | succ fuel ih =>
    obtain ⟨IH1, IH2, IH3, IH4, IH5, IH6⟩ := ih
    refine ⟨?_, ?_, ?_, ?_, ?_, ?_⟩
    -- eval
    · intro e r st v st' hr hst h
      cases e with
      | value l =>
        cases l with
        | num n =>
          replace h : Except.ok ((Value.num n : Value), st) = .ok (v, st') := h
          injection h with h1
          injection h1 with h2 h3
          subst h3
          exact rootIntact_refl st
        | str s =>
          replace h : Except.ok ((Value.str s : Value), st) = .ok (v, st') := h
          injection h with h1
          injection h1 with h2 h3
          subst h3
          exact rootIntact_refl st
      | ident n =>
        have key : eval (fuel+1) (.ident n) r st =
            (match scopeLookup st st.frames.length r n with
             | some w => .ok (w, st)
             | none => .error (.referenceError ("Undefined binding: " ++ n))) := rfl
        rw [key] at h
        cases hl : scopeLookup st st.frames.length r n with
        | none => rw [hl] at h; exact Except.noConfusion h
        | some w =>
          rw [hl] at h
          injection h with h1
          injection h1 with h2 h3
          subst h3
          exact rootIntact_refl st
      | apply op args =>
        have key : eval (fuel+1) (.apply op args) r st =
            (match isSpecialOp op with
             | some sf => evalSpecial fuel sf args r st
             | none =>
               match eval fuel op r st with
               | .error e2 => .error e2
               | .ok (opv, st1) =>
                 if isFunction opv then
                   match evalArgs fuel args r st1 with
                   | .error e2 => .error e2
                   | .ok (vs, st2) => applyValue fuel opv vs st2
                 else
                   .error (.typeError "Applying a non-function.")) := rfl
        rw [key] at h
        cases hso : isSpecialOp op with
        | some sf =>
          rw [hso] at h
          exact IH3 sf args r st v st' hr hst h
        | none =>
          rw [hso] at h
          cases h1 : eval fuel op r st with
          | error e2 => rw [h1] at h; exact Except.noConfusion h
          | ok pr =>
            obtain ⟨opv, st1⟩ := pr
            simp only [h1] at h
            have p1 := IH1 op r st opv st1 hr hst h1
            by_cases hf : isFunction opv = true
            · rw [if_pos hf] at h
              cases h2 : evalArgs fuel args r st1 with
              | error e2 => rw [h2] at h; exact Except.noConfusion h
              | ok pr2 =>
                obtain ⟨vs, st2⟩ := pr2
                simp only [h2] at h
                have hst1 : 0 < st1.frames.length := Nat.lt_of_lt_of_le hst p1.2
                have p2 := IH2 args r st1 vs st2 hr hst1 h2
                have hst2 : 0 < st2.frames.length := Nat.lt_of_lt_of_le hst1 p2.2
                have p3 := IH6 opv vs st2 v st' hst2 h
                exact rootIntact_trans p1 (rootIntact_trans p2 p3)
            · rw [if_neg hf] at h
              exact Except.noConfusion h
    -- evalArgs
    · intro args r st vs st' hr hst h
      cases args with
      | nil =>
        replace h : Except.ok (([] : List Value), st) = .ok (vs, st') := h
        injection h with h1
        injection h1 with h2 h3
        subst h3
        exact rootIntact_refl st
      | cons a as =>
        have key : evalArgs (fuel+1) (a :: as) r st =
            (match eval fuel a r st with
             | .error e2 => .error e2
             | .ok (w, st1) =>
               match evalArgs fuel as r st1 with
               | .error e2 => .error e2
               | .ok (ws, st2) => .ok (w :: ws, st2)) := rfl
        rw [key] at h
        cases h1 : eval fuel a r st with
        | error e2 => rw [h1] at h; exact Except.noConfusion h
        | ok pr =>
          obtain ⟨w, st1⟩ := pr
          simp only [h1] at h
          have p1 := IH1 a r st w st1 hr hst h1
          have hst1 : 0 < st1.frames.length := Nat.lt_of_lt_of_le hst p1.2
          cases h2 : evalArgs fuel as r st1 with
          | error e2 => rw [h2] at h; exact Except.noConfusion h
          | ok pr2 =>
            obtain ⟨ws, st2⟩ := pr2
            simp only [h2] at h
            injection h with h3
            injection h3 with h4 h5
            subst h5
            exact rootIntact_trans p1 (IH2 as r st1 ws st2 hr hst1 h2)
    -- evalSpecial
    · intro sf args r st v st' hr hst h
      cases sf with
      | sIf =>
        cases args with
        | nil => exact Except.noConfusion h
        | cons c rest =>
          cases rest with
          | nil => exact Except.noConfusion h
          | cons t rest2 =>
            cases rest2 with
            | nil => exact Except.noConfusion h
            | cons e2 rest3 =>
              cases rest3 with
              | cons x rest4 => exact Except.noConfusion h
              | nil =>
                replace h : (match eval fuel c r st with
                    | .error er => .error er
                    | .ok (w, st1) =>
                      if strictEqFalse w then eval fuel e2 r st1
                      else eval fuel t r st1) = Except.ok (v, st') := h
                cases h1 : eval fuel c r st with
                | error er => rw [h1] at h; exact Except.noConfusion h
                | ok pr =>
                  obtain ⟨w, st1⟩ := pr
                  simp only [h1] at h
                  have p1 := IH1 c r st w st1 hr hst h1
                  have hst1 : 0 < st1.frames.length := Nat.lt_of_lt_of_le hst p1.2
                  by_cases hw : strictEqFalse w = true
                  · rw [if_pos hw] at h
                    exact rootIntact_trans p1 (IH1 e2 r st1 v st' hr hst1 h)
                  · rw [if_neg hw] at h
                    exact rootIntact_trans p1 (IH1 t r st1 v st' hr hst1 h)
      | sWhile =>
        cases args with
        | nil => exact Except.noConfusion h
        | cons c rest =>
          cases rest with
          | nil => exact Except.noConfusion h
          | cons b rest2 =>
            cases rest2 with
            | cons x rest3 => exact Except.noConfusion h
            | nil => exact IH4 c b r st v st' hr hst h
      | sDo => exact IH5 (.bool false) args r st v st' hr hst h
      | sDefine =>
        cases args with
        | nil => exact Except.noConfusion h
        | cons x rest =>
          cases rest with
          | nil => cases x <;> exact Except.noConfusion h
          | cons y rest2 =>
            cases rest2 with
            | cons z rest3 => cases x <;> exact Except.noConfusion h
            | nil =>
              cases x with
              | value lv => exact Except.noConfusion h
              | apply o as2 => exact Except.noConfusion h
              | ident n =>
                replace h : (match eval fuel y r st with
                    | .error er => .error er
                    | .ok (w, st1) => .ok (w, setFrameBinding st1 r n w)) =
                    Except.ok (v, st') := h
                cases h1 : eval fuel y r st with
                | error er => rw [h1] at h; exact Except.noConfusion h
                | ok pr =>
                  obtain ⟨w, st1⟩ := pr
                  simp only [h1] at h
                  injection h with h2
                  injection h2 with h3 h4
                  subst h4
                  have p1 := IH1 y r st w st1 hr hst h1
                  exact rootIntact_trans p1
                    (setFrameBinding_rootIntact st1 r n w (by omega))
      | sFun =>
        cases args with
        | nil => exact Except.noConfusion h
        | cons a as =>
          replace h : (match extractParams (a :: as).dropLast with
              | .error e2 => .error e2
              | .ok ps =>
                .ok ((Value.closure ps ((a :: as).getLastD (.ident "")) r : Value), st)) =
              Except.ok (v, st') := h
          cases h1 : extractParams (a :: as).dropLast with
          | error e2 => rw [h1] at h; exact Except.noConfusion h
          | ok ps =>
            simp only [h1] at h
            injection h with h2
            injection h2 with h3 h4
            subst h4
            exact rootIntact_refl st
    -- evalWhile
    · intro c b r st v st' hr hst h
      have key : evalWhile (fuel+1) c b r st =
          (match eval fuel c r st with
           | .error e2 => .error e2
           | .ok (w, st1) =>
             if strictEqFalse w then
               .ok (.bool false, st1)
             else
               match eval fuel b r st1 with
               | .error e2 => .error e2
               | .ok (w2, st2) => evalWhile fuel c b r st2) := rfl
      rw [key] at h
      cases h1 : eval fuel c r st with
      | error e2 => rw [h1] at h; exact Except.noConfusion h
      | ok pr =>
        obtain ⟨w, st1⟩ := pr
        simp only [h1] at h
        have p1 := IH1 c r st w st1 hr hst h1
        have hst1 : 0 < st1.frames.length := Nat.lt_of_lt_of_le hst p1.2
        by_cases hw : strictEqFalse w = true
        · rw [if_pos hw] at h
          injection h with h2
          injection h2 with h3 h4
          subst h4
          exact p1
        · rw [if_neg hw] at h
          cases h2 : eval fuel b r st1 with
          | error e2 => rw [h2] at h; exact Except.noConfusion h
          | ok pr2 =>
            obtain ⟨w2, st2⟩ := pr2
            simp only [h2] at h
            have p2 := IH1 b r st1 w2 st2 hr hst1 h2
            have hst2 : 0 < st2.frames.length := Nat.lt_of_lt_of_le hst1 p2.2
            exact rootIntact_trans p1
              (rootIntact_trans p2 (IH4 c b r st2 v st' hr hst2 h))
    -- evalDo
    · intro v0 args r st v st' hr hst h
      cases args with
      | nil =>
        replace h : Except.ok (v0, st) = .ok (v, st') := h
        injection h with h1
        injection h1 with h2 h3
        subst h3
        exact rootIntact_refl st
      | cons a as =>
        replace h : (match eval fuel a r st with
            | .error e2 => .error e2
            | .ok (w, st1) => evalDo fuel w as r st1) = Except.ok (v, st') := h
        cases h1 : eval fuel a r st with
        | error e2 => rw [h1] at h; exact Except.noConfusion h
        | ok pr =>
          obtain ⟨w, st1⟩ := pr
          simp only [h1] at h
          have p1 := IH1 a r st w st1 hr hst h1
          have hst1 : 0 < st1.frames.length := Nat.lt_of_lt_of_le hst p1.2
          exact rootIntact_trans p1 (IH5 w as r st1 v st' hr hst1 h)
    -- applyValue
    · intro fv vs st v st' hst h
      cases fv with
      | num a => exact Except.noConfusion h
      | str a => exact Except.noConfusion h
      | bool a => exact Except.noConfusion h
      | undef => exact Except.noConfusion h
      | arr a => exact Except.noConfusion h
      | closure params body cref =>
        replace h : (if vs.length ≠ params.length then
              (.error (.typeError "Wrong number of arguments") :
                Except Err (Value × St))
            else
              eval fuel body st.frames.length
                (pushFrame st
                  ⟨(params.zip vs).foldl (fun bs pv => setBinding bs pv.1 pv.2) [],
                   some cref⟩)) = Except.ok (v, st') := h
        by_cases hl : vs.length ≠ params.length
        · rw [if_pos hl] at h
          exact Except.noConfusion h
        · rw [if_neg hl] at h
          have hpush := pushFrame_rootIntact st
            ⟨(params.zip vs).foldl (fun bs pv => setBinding bs pv.1 pv.2) [],
             some cref⟩ hst
          have hlen : 0 < (pushFrame st
              ⟨(params.zip vs).foldl (fun bs pv => setBinding bs pv.1 pv.2) [],
               some cref⟩).frames.length := Nat.lt_of_lt_of_le hst hpush.2
          exact rootIntact_trans hpush
            (IH1 body st.frames.length _ v st' hst hlen h)
      | builtin b =>
        replace h : (match applyBuiltin b vs with
            | .error e2 => .error e2
            | .ok (w, printed) => .ok (w, { st with out := st.out ++ printed })) =
            Except.ok (v, st') := h
        cases h1 : applyBuiltin b vs with
        | error e2 => rw [h1] at h; exact Except.noConfusion h
        | ok pr =>
          obtain ⟨w, printed⟩ := pr
          simp only [h1] at h
          injection h with h2
          injection h2 with h3 h4
          subst h4
          exact ⟨rfl, le_refl _⟩

/-- C5: running any source program leaves the root scope's bindings
unchanged — evaluation happens in the fresh child scope (index 1) of the
root, and whatever `define`s the program performs write only into that child
or into freshly created descendant frames, so after a successful run the root
frame is still exactly the built-in frame. -/
theorem run_preserves_root_scope (fuel : Nat) (program : String) (v : Value)
    (st' : St) (h : runState fuel program = .ok (v, st')) :
    st'.frames.get? 0 = some topFrame ∧
    st'.frames.get? 0 = initialSt.frames.get? 0 := by
  unfold runState at h
  cases hp : parse program with
  | error e => rw [hp] at h; exact Except.noConfusion h
  | ok expr =>
    rw [hp] at h
    have hroot := ((evalRootIntact fuel).1 expr 1 initialSt v st'
      (by decide) (by decide) h).1
    exact ⟨hroot.trans rfl, hroot⟩

/-- C5 witness: `define(x, 2)` binds `x` in the program scope (frame 1) and
the root frame still holds exactly the built-ins. -/
theorem run_preserves_root_scope_witness :
    runState 30 "define(x, 2)" =
      .ok (.num 2,
        { frames := [topFrame, { bindings := [("x", .num 2)], parent := some 0 }],
          out := [] }) ∧
    ({ frames := [topFrame, { bindings := [("x", .num 2)], parent := some 0 }],
       out := [] } : St).frames.get? 0 = some topFrame :=
  ⟨rfl,
    (run_preserves_root_scope 30 "define(x, 2)" (.num 2)
      { frames := [topFrame, { bindings := [("x", .num 2)], parent := some 0 }],
        out := [] } rfl).1⟩

end Egg
